import Mathlib

/-!
Verification development for `src/optimizer.py`: a factory `select_optimizer`
mapping optimizer names to configured optimizers, and the SAM
(Sharpness-Aware Minimization) optimizer wrapper with its two-phase
`first_step` / `second_step` protocol.

Tensors are modelled as flat lists of real numbers; a parameter carries its
mutable `data` tensor, an optional gradient tensor (`p.grad`, `none` when the
parameter was never involved in a backward pass), and the per-parameter
optimizer-state entry `old_p` (`none` models the absence of the key in
`self.state[p]`, so a read of a missing key is a failure).  Fallible
operations (Python `assert`, `KeyError`, `IndexError`, an empty
`torch.stack`) return `Option`/`Except`.
-/

/-- A model parameter: its data tensor, optional gradient, and the SAM
per-parameter state entry `self.state[p]["old_p"]` (absent = `none`). -/
structure Param where
  data  : List ℝ
  grad  : Option (List ℝ)
  old_p : Option (List ℝ)

/-- A parameter group: the SAM hyperparameters `rho` and `adaptive`
together with the parameters of the group (`group["params"]`). -/
structure ParamGroup where
  rho      : ℝ
  adaptive : Bool
  params   : List Param

/-- The L2 norm of a flat tensor: `t.norm(p=2)`. -/
noncomputable def l2norm (xs : List ℝ) : ℝ :=
  Real.sqrt (xs.map (fun x => x ^ 2)).sum

/-- One parameter's contribution to the aggregate gradient norm:
`((torch.abs(p) if group["adaptive"] else 1.0) * p.grad).norm(p=2)`. -/
noncomputable def gradContrib (adaptive : Bool) (p : Param) (g : List ℝ) : ℝ :=
  l2norm (List.zipWith (fun w gi => (if adaptive then |w| else 1) * gi) p.data g)

/-- The list comprehension inside `torch.stack [...]` of `_grad_norm`: one
entry per parameter with a gradient, in group order then parameter order. -/
noncomputable def gradContribs (groups : List ParamGroup) : List ℝ :=
  (groups.map (fun g =>
    g.params.filterMap (fun p => p.grad.map (gradContrib g.adaptive p)))).flatten

/-- Model of `SAM._grad_norm`.  Fails (`none`) when
`self.param_groups[0]["params"][0]` does not exist (`IndexError` while
computing `shared_device`) or when no parameter has a gradient
(`torch.stack` of an empty list).  Otherwise returns the L2 norm of the
stacked per-parameter L2 norms.  Device moves (`.to(shared_device)`) are
value-preserving and are not modelled. -/
noncomputable def grad_norm (groups : List ParamGroup) : Option ℝ :=
  match groups with
  | [] => none
  | g0 :: _ =>
    match g0.params with
    | [] => none
    | _ :: _ =>
      match gradContribs groups with
      | [] => none
      | c :: cs => some (l2norm (c :: cs))

/-- The per-group perturbation scale of `first_step`:
`scale = group["rho"] / (grad_norm + 1e-12)`. -/
noncomputable def scaleOf (rho gn : ℝ) : ℝ := rho / (gn + 1e-12)

/-- The effect of `optimizer.zero_grad()` on one parameter: drop its
gradient. -/
def clearGrad (p : Param) : Param := { p with grad := none }

/-- Model of `optimizer.zero_grad()`: drop all gradients. -/
def zero_grad (groups : List ParamGroup) : List ParamGroup :=
  groups.map (fun g => { g with params := g.params.map clearGrad })

/-- The body of the inner loop of `first_step` for one parameter: skip if
`p.grad is None`; otherwise snapshot `old_p`, compute
`e_w = (torch.pow(p, 2) if group["adaptive"] else 1.0) * p.grad * scale`
and do `p.add_(e_w)`. -/
def perturbParam (adaptive : Bool) (scale : ℝ) (p : Param) : Param :=
  match p.grad with
  | none => p
  | some g =>
    { p with
      old_p := some p.data
      data  := List.zipWith
        (fun w gi => w + (if adaptive then w ^ 2 else 1) * gi * scale) p.data g }

/-- The two nested loops of `first_step`: perturb every gradient-bearing
parameter of every group by its group's scale `scaleOf group.rho gn`. -/
noncomputable def perturbGroups (gn : ℝ) (groups : List ParamGroup) : List ParamGroup :=
  groups.map (fun g =>
    { g with params := g.params.map (perturbParam g.adaptive (scaleOf g.rho gn)) })

/-- Model of `SAM.first_step(zero_grad)`: compute the aggregate gradient norm, then
perturb every gradient-bearing parameter of every group by its group's
scale; finally clear gradients when `zero_grad` is set.  Fails exactly when
`_grad_norm` fails. -/
noncomputable def first_step (zg : Bool) (groups : List ParamGroup) :
    Option (List ParamGroup) :=
  (grad_norm groups).map (fun gn =>
    if zg then zero_grad (perturbGroups gn groups) else perturbGroups gn groups)

/-- The body of the loop of `second_step` for one parameter: skip if
`p.grad is None`; otherwise `p.data = self.state[p]["old_p"]`, a `KeyError`
(`none`) when the `old_p` entry is absent. -/
def restoreParam (p : Param) : Option Param :=
  match p.grad with
  | none => some p
  | some _ =>
    match p.old_p with
    | none => none
    | some w => some { p with data := w }

/-- Run a fallible operation over a list, failing when any element fails:
the effect of a Python `for` loop whose body may raise. -/
def mapOrFail {α β : Type} (f : α → Option β) : List α → Option (List β)
  | [] => some []
  | a :: t => (f a).bind (fun b => (mapOrFail f t).map (fun bs => b :: bs))

/-- The restoration loop of `second_step` over all groups. -/
def restoreGroups (groups : List ParamGroup) : Option (List ParamGroup) :=
  mapOrFail (fun g =>
    (mapOrFail restoreParam g.params).map (fun ps => { g with params := ps })) groups

/-- Model of `SAM.second_step(zero_grad)`: restore every gradient-bearing parameter
from its `old_p` snapshot, then run `self.base_optimizer.step()` (the base
optimizer is external, so it is passed as an opaque in-place update
`baseStep` on the shared groups), then clear gradients when `zero_grad` is
set. -/
def second_step (baseStep : List ParamGroup → List ParamGroup) (zg : Bool)
    (groups : List ParamGroup) : Option (List ParamGroup) :=
  (restoreGroups groups).map (fun gs =>
    let gs' := baseStep gs
    if zg then zero_grad gs' else gs')

/-- Model of `SAM.step(closure)`: `assert closure is not None` (failure modelled by
`none`), then `first_step(zero_grad=True)`, one invocation of the closure (a
state transformer that runs a forward/backward pass and rewrites gradient
state), then `second_step()`.  The `torch.enable_grad()` wrapper only tweaks
the ambient autograd mode and is value-transparent. -/
noncomputable def SAM.step (baseStep : List ParamGroup → List ParamGroup)
    (closure : Option (List ParamGroup → List ParamGroup))
    (groups : List ParamGroup) : Option (List ParamGroup) :=
  match closure with
  | none => none
  | some c => (first_step true groups).bind (fun gs => second_step baseStep false (c gs))

/-- Model of `SAM.__init__`: `assert rho >= 0.0` (an `AssertionError`, modelled by
`none`, exactly when `rho < 0`), then build the parameter group carrying the
defaults `dict(rho=rho, adaptive=adaptive, ...)` over the supplied
parameters. -/
noncomputable def SAM.init (rho : ℝ) (adaptive : Bool) (params : List Param) :
    Option (List ParamGroup) :=
  if 0 ≤ rho then some [{ rho := rho, adaptive := adaptive, params := params }]
  else none

/-- The two group-list references held by a constructed SAM optimizer:
`self.param_groups` and `self.base_optimizer.param_groups`.  Group objects
live in an ambient heap; a reference is an index into that heap, so
reference identity is equality of indices. -/
structure SAMHandle where
  param_groups : List Nat
  base_param_groups : List Nat

/-- Lines 33–34 of `SAM.__init__`: the base optimizer is constructed over
`self.param_groups` and then `self.param_groups = self.base_optimizer.param_groups`
makes both handles reference the same group objects. -/
def SAMHandle.ofInit (groups : List Nat) : SAMHandle :=
  { param_groups := groups, base_param_groups := groups }

/-- Model of `SAM.load_state_dict`: `super().load_state_dict(state_dict)` rebuilds
`self.param_groups` from the deserialized state dict (possibly fresh group
objects, supplied here as `loadedGroups`), and then
`self.base_optimizer.param_groups = self.param_groups` re-points the base
optimizer at the rebuilt list. -/
def SAMHandle.load_state_dict (h : SAMHandle) (loadedGroups : List Nat) : SAMHandle :=
  let h1 : SAMHandle := { h with param_groups := loadedGroups }
  { h1 with base_param_groups := h1.param_groups }

/-- The base-optimizer algorithm handed to the SAM wrapper by the factory. -/
inductive BaseKind where
  | SGD
  | Adam
deriving DecidableEq

/-- The result of one of the external optimizer constructors: which
constructor ran and which hyperparameters were forwarded to it.  `P` is the
type of the model's trainable-parameter container (`model.parameters()`).
`torch.optim.SGD` defaults `momentum` to `0` when the keyword is absent;
the SAM wrapper records the keyword arguments it forwards to its base
(`momentum` for SGD, `betas` for Adam). -/
inductive TorchOpt (P : Type) where
  | SGD (params : P) (lr : ℝ) (momentum : ℝ)
  | Adam (params : P) (lr : ℝ) (betas : ℝ × ℝ)
  | AdamW (params : P) (lr : ℝ) (betas : ℝ × ℝ)
  | AdaBelief (params : P) (lr : ℝ) (betas : ℝ × ℝ)
  | SAMWrap (params : P) (base : BaseKind) (lr : ℝ) (momentum : Option ℝ)
      (betas : Option (ℝ × ℝ))

/-- Model of `select_optimizer(optimizer_name, model, learning_rate, momentum, betas)`:
route the name to the matching constructor over the model's parameters,
forwarding exactly the hyperparameters the source passes; any other name
raises `ValueError("Unsupported optimizer")`. -/
def select_optimizer {P : Type} (optimizer_name : String) (model_params : P)
    (learning_rate : ℝ) (momentum : ℝ) (betas : ℝ × ℝ) :
    Except String (TorchOpt P) :=
  if optimizer_name = "SGD" then
    .ok (.SGD model_params learning_rate 0)
  else if optimizer_name = "momentum" then
    .ok (.SGD model_params learning_rate momentum)
  else if optimizer_name = "Adam" then
    .ok (.Adam model_params learning_rate betas)
  else if optimizer_name = "AdamW" then
    .ok (.AdamW model_params learning_rate betas)
  else if optimizer_name = "AdaBelief" then
    .ok (.AdaBelief model_params learning_rate betas)
  else if optimizer_name = "SAM" then
    .ok (.SAMWrap model_params .SGD learning_rate (some momentum) none)
  else if optimizer_name = "SAM_Adam" then
    .ok (.SAMWrap model_params .Adam learning_rate none (some betas))
  else
    .error "Unsupported optimizer"

/-- Replace every gradient tensor by its element-wise double. -/
def doubleGrads (groups : List ParamGroup) : List ParamGroup :=
  groups.map (fun g =>
    { g with params := g.params.map (fun p =>
        { p with grad := p.grad.map (List.map (fun x => 2 * x)) }) })

/-- Overwrite the gradients of a state with a given per-parameter table:
the effect on gradient state of a closure running a fresh backward pass. -/
def setGrads (G : List (List (Option (List ℝ)))) (groups : List ParamGroup) :
    List ParamGroup :=
  List.zipWith (fun Gg g =>
    { g with params := List.zipWith (fun og p => { p with grad := og }) Gg g.params })
    G groups

/-- The snapshot effect of `first_step` in isolation: a gradient-bearing
parameter gets `old_p = some p.data`; data and gradient untouched. -/
def snapParam (p : Param) : Param :=
  match p.grad with
  | none => p
  | some _ => { p with old_p := some p.data }

/-- Application of `snapParam` over a whole state. -/
def snapGroups (groups : List ParamGroup) : List ParamGroup :=
  groups.map (fun g => { g with params := g.params.map snapParam })

/-- The parameter at position `j` of group `i`. -/
def getParam (groups : List ParamGroup) (i j : Nat) : Option Param :=
  groups[i]?.bind (fun g => g.params[j]?)

/-- The data tensors of a state, forgetting gradients and optimizer state. -/
def dataOf (groups : List ParamGroup) : List (List (List ℝ)) :=
  groups.map (fun g => g.params.map (fun p => p.data))

/-- C6: constructing the SAM optimizer succeeds for every `rho ≥ 0` and
fails with an assertion error for every `rho < 0`; the check is the first
statement of `__init__`, i.e. eager. -/
theorem sam_init_rho_check (rho : ℝ) (adaptive : Bool) (params : List Param) :
    (0 ≤ rho → SAM.init rho adaptive params
        = some [{ rho := rho, adaptive := adaptive, params := params }])
    ∧ (rho < 0 → SAM.init rho adaptive params = none) := by
  constructor
  · intro h
    simp [SAM.init, h]
  · intro h
    simp [SAM.init, not_le.mpr h]

/-- Witness for `sam_init_rho_check` at `rho = 1` and `rho = -1`. -/
theorem sam_init_rho_check_witness :
    SAM.init 1 false [] = some [{ rho := 1, adaptive := false, params := [] }]
    ∧ SAM.init (-1) false [] = none :=
  ⟨(sam_init_rho_check 1 false []).1 (by norm_num),
   (sam_init_rho_check (-1) false []).2 (by norm_num)⟩

/-- C7: after `load_state_dict`, the wrapped base optimizer's
parameter-group list is identical by reference to the SAM optimizer's own
parameter-group list, for any handle and any deserialized group list. -/
theorem load_state_dict_realiases (h : SAMHandle) (loadedGroups : List Nat) :
    (h.load_state_dict loadedGroups).base_param_groups
      = (h.load_state_dict loadedGroups).param_groups := rfl

/-- C4: `step` with `closure=None` fails the assertion; with a closure it
performs exactly `first_step(zero_grad=True)`, one single invocation of the
closure on the perturbed state, then `second_step()` on the closure's
result. -/
theorem step_protocol (baseStep : List ParamGroup → List ParamGroup)
    (groups : List ParamGroup) :
    SAM.step baseStep none groups = none
    ∧ ∀ c : List ParamGroup → List ParamGroup,
        SAM.step baseStep (some c) groups
          = (first_step true groups).bind
              (fun gs => second_step baseStep false (c gs)) :=
  ⟨rfl, fun _ => rfl⟩

/-- C8: `select_optimizer` maps each of the seven supported names to the
matching constructor with the relevant hyperparameters forwarded (SGD as
the wrapped base for "SAM", Adam for "SAM_Adam"), and fails with the
"Unsupported optimizer" error for every other name. -/
theorem select_optimizer_spec {P : Type} (m : P) (lr mom : ℝ) (betas : ℝ × ℝ) :
    select_optimizer "SGD" m lr mom betas = .ok (.SGD m lr 0)
    ∧ select_optimizer "momentum" m lr mom betas = .ok (.SGD m lr mom)
    ∧ select_optimizer "Adam" m lr mom betas = .ok (.Adam m lr betas)
    ∧ select_optimizer "AdamW" m lr mom betas = .ok (.AdamW m lr betas)
    ∧ select_optimizer "AdaBelief" m lr mom betas = .ok (.AdaBelief m lr betas)
    ∧ select_optimizer "SAM" m lr mom betas
        = .ok (.SAMWrap m .SGD lr (some mom) none)
    ∧ select_optimizer "SAM_Adam" m lr mom betas
        = .ok (.SAMWrap m .Adam lr none (some betas))
    ∧ ∀ name : String,
        name ∉ ["SGD", "momentum", "Adam", "AdamW", "AdaBelief", "SAM", "SAM_Adam"] →
        select_optimizer name m lr mom betas = .error "Unsupported optimizer" := by
  refine ⟨rfl, rfl, rfl, rfl, rfl, rfl, rfl, ?_⟩
  intro name hname
  simp only [List.mem_cons, List.mem_singleton, not_or] at hname
  obtain ⟨h1, h2, h3, h4, h5, h6, h7⟩ := hname
  simp [select_optimizer, h1, h2, h3, h4, h5, h6, h7]

/-- Witness for `select_optimizer_spec` at the name "bogus". -/
theorem select_optimizer_spec_witness :
    select_optimizer "bogus" () 1 0 (0, 0) = .error "Unsupported optimizer" :=
  (select_optimizer_spec () 1 0 (0, 0)).2.2.2.2.2.2.2 "bogus" (by decide)

/-- C10: `_grad_norm` (hence `first_step` and `step`) indexes the first
parameter of the first group to pick the shared device, so it fails
whenever the first group is empty — even when other groups hold
gradient-bearing parameters — and success requires a non-empty first
group. -/
theorem grad_norm_first_group_indexing :
    (∀ (g0 : ParamGroup) (rest : List ParamGroup),
        g0.params = [] → grad_norm (g0 :: rest) = none)
    ∧ grad_norm [] = none
    ∧ (∀ (zg : Bool) (groups : List ParamGroup),
        grad_norm groups = none → first_step zg groups = none)
    ∧ (∀ (baseStep c : List ParamGroup → List ParamGroup)
        (groups : List ParamGroup),
        grad_norm groups = none → SAM.step baseStep (some c) groups = none)
    ∧ (∀ (groups : List ParamGroup) (gn : ℝ), grad_norm groups = some gn →
        ∃ g0 rest, groups = g0 :: rest ∧ g0.params ≠ []) := by
  refine ⟨?_, rfl, ?_, ?_, ?_⟩
  · intro g0 rest h
    simp [grad_norm, h]
  · intro zg groups h
    simp [first_step, h]
  · intro baseStep c groups h
    simp [SAM.step, first_step, h]
  · intro groups gn h
    match groups with
    | [] => simp [grad_norm] at h
    | g0 :: rest =>
      refine ⟨g0, rest, rfl, ?_⟩
      intro hp
      simp [grad_norm, hp] at h

/-- Witness for `grad_norm_first_group_indexing`: an empty first group makes
`_grad_norm` and `first_step` fail although the second group has a
gradient-bearing parameter. -/
theorem grad_norm_first_group_indexing_witness :
    grad_norm
        ({ rho := 1, adaptive := false, params := [] } ::
          [{ rho := 1, adaptive := false,
             params := [{ data := [1], grad := some [1], old_p := none }] }]) = none
    ∧ first_step true
        ({ rho := 1, adaptive := false, params := [] } ::
          [{ rho := 1, adaptive := false,
             params := [{ data := [1], grad := some [1], old_p := none }] }]) = none :=
  ⟨grad_norm_first_group_indexing.1 _ _ rfl,
   grad_norm_first_group_indexing.2.2.1 true _
     (grad_norm_first_group_indexing.1 _ _ rfl)⟩

/-- A `mapOrFail` succeeds exactly when the function succeeds on every
element of the list. -/
theorem isSome_mapOrFail {α β : Type} (f : α → Option β) :
    ∀ l : List α, (mapOrFail f l).isSome ↔ ∀ x ∈ l, (f x).isSome := by
  intro l
  induction l with
  | nil => simp [mapOrFail]
  | cons a t ih =>
    cases hf : f a with
    | none => simp [mapOrFail, hf]
    | some b =>
      cases ht : mapOrFail f t with
      | none => simp [mapOrFail, hf, ht, ← ih]
      | some bs => simp [mapOrFail, hf, ht, ← ih]

/-- Restoring one parameter succeeds exactly when a present gradient is
accompanied by a present `old_p` snapshot. -/
theorem isSome_restoreParam (p : Param) :
    (restoreParam p).isSome ↔ (p.grad.isSome → p.old_p.isSome) := by
  cases hg : p.grad <;> cases ho : p.old_p <;> simp [restoreParam, hg, ho]

/-- The L2 norm is nonnegative. -/
theorem l2norm_nonneg (xs : List ℝ) : 0 ≤ l2norm xs := Real.sqrt_nonneg _

/-- The L2 norm of a one-element list. -/
theorem l2norm_singleton (x : ℝ) : l2norm [x] = |x| := by
  simp [l2norm, Real.sqrt_sq_eq_abs]

/-- A `zipWith` projecting its second argument, over lists of equal length. -/
theorem zipWith_snd {α β : Type} :
    ∀ (as : List α) (bs : List β), as.length = bs.length →
      List.zipWith (fun _ b => b) as bs = bs := by
  intro as
  induction as with
  | nil =>
    intro bs hb
    cases bs with
    | nil => rfl
    | cons b tb => simp at hb
  | cons a t ih =>
    intro bs hb
    cases bs with
    | nil => simp at hb
    | cons b tb =>
      simp only [List.zipWith_cons_cons]
      rw [ih tb (by simpa using hb)]

/-- Two `zipWith`s with pointwise-equal functions agree. -/
theorem zipWith_ext {α β γ : Type} (f f' : α → β → γ) (h : ∀ a b, f a b = f' a b) :
    ∀ (as : List α) (bs : List β), List.zipWith f as bs = List.zipWith f' as bs := by
  intro as
  induction as with
  | nil => intro bs; rfl
  | cons a t ih =>
    intro bs
    cases bs with
    | nil => rfl
    | cons b tb => simp [List.zipWith_cons_cons, h, ih]

/-- Reading `getParam` through the perturbation pass of `first_step`. -/
theorem getParam_perturbGroups (gn : ℝ) (groups : List ParamGroup) (i j : Nat) :
    getParam (perturbGroups gn groups) i j
      = groups[i]?.bind (fun g =>
          (g.params[j]?).map (perturbParam g.adaptive (scaleOf g.rho gn))) := by
  rw [perturbGroups, getParam, List.getElem?_map]
  cases groups[i]? with
  | none => rfl
  | some g => simp [List.getElem?_map]

/-- Reading `getParam` through `zero_grad`. -/
theorem getParam_zero_grad (groups : List ParamGroup) (i j : Nat) :
    getParam (zero_grad groups) i j = (getParam groups i j).map clearGrad := by
  rw [zero_grad, getParam, getParam, List.getElem?_map]
  cases groups[i]? with
  | none => rfl
  | some g => simp [List.getElem?_map]

/-- Dropping the gradient of a parameter that has none is the identity. -/
theorem clearGrad_of_grad_none (p : Param) (h : p.grad = none) : clearGrad p = p := by
  cases p
  simp_all [clearGrad]

/-- C5: a parameter without a gradient is untouched: `first_step` keeps its
value and creates no `old_p` snapshot for it, and the restoration loop of
`second_step` neither writes it nor consults any snapshot (it succeeds even
with no snapshot present). -/
theorem no_grad_params_untouched :
    (∀ (zg : Bool) (groups groups' : List ParamGroup) (i j : Nat) (p : Param),
        first_step zg groups = some groups' →
        getParam groups i j = some p → p.grad = none →
        getParam groups' i j = some p)
    ∧ (∀ p : Param, p.grad = none → restoreParam p = some p) := by
  constructor
  · intro zg groups groups' i j p hfs hget hgrad
    obtain ⟨g, hgi, hpj⟩ : ∃ g, groups[i]? = some g ∧ g.params[j]? = some p := by
      rw [getParam] at hget
      cases hgi : groups[i]? with
      | none => rw [hgi] at hget; simp at hget
      | some g =>
        rw [hgi] at hget
        exact ⟨g, rfl, by simpa using hget⟩
    rw [first_step] at hfs
    cases hgn : grad_norm groups with
    | none => rw [hgn] at hfs; simp at hfs
    | some gn =>
      rw [hgn] at hfs
      simp only [Option.map_some'] at hfs
      have hpert : perturbParam g.adaptive (scaleOf g.rho gn) p = p := by
        rw [perturbParam, hgrad]
      have hPG : getParam (perturbGroups gn groups) i j = some p := by
        rw [getParam_perturbGroups, hgi]
        simp [hpj, hpert]
      cases zg with
      | false =>
        have hgs : perturbGroups gn groups = groups' := by simpa using hfs
        rw [← hgs]
        exact hPG
      | true =>
        have hgs : zero_grad (perturbGroups gn groups) = groups' := by simpa using hfs
        rw [← hgs, getParam_zero_grad, hPG]
        simp [clearGrad_of_grad_none p hgrad]
  · intro p h
    rw [restoreParam, h]

/-- Witness for `no_grad_params_untouched`: a two-parameter group where the
second parameter has no gradient; after `first_step` it is returned
unchanged, and `restoreParam` passes it through. -/
theorem no_grad_params_untouched_witness :
    getParam
        [{ rho := 1, adaptive := false,
           params := [{ data := [1], grad := some [0], old_p := some [1] },
                      { data := [2], grad := none, old_p := none }] }] 0 1
      = some { data := [2], grad := none, old_p := none }
    ∧ restoreParam { data := [2], grad := none, old_p := none }
      = some { data := [2], grad := none, old_p := none } := by
  have hg : grad_norm
      [{ rho := 1, adaptive := false,
         params := [{ data := [1], grad := some [0], old_p := none },
                    { data := [2], grad := none, old_p := none }] }] = some 0 := by
    simp [grad_norm, gradContribs, gradContrib, l2norm]
  have hfs : first_step false
      [{ rho := 1, adaptive := false,
         params := [{ data := [1], grad := some [0], old_p := none },
                    { data := [2], grad := none, old_p := none }] }]
      = some [{ rho := 1, adaptive := false,
                params := [{ data := [1], grad := some [0], old_p := some [1] },
                           { data := [2], grad := none, old_p := none }] }] := by
    rw [first_step, hg]
    simp [perturbGroups, perturbParam, scaleOf]
  exact ⟨no_grad_params_untouched.1 false _ _ 0 1 _ hfs rfl rfl,
         no_grad_params_untouched.2 _ rfl⟩

/-- C9: `second_step` succeeds exactly when every gradient-bearing
parameter carries an `old_p` snapshot; a parameter whose gradient exists
but was never snapshotted by a preceding `first_step` makes the state
lookup fail (missing-key error) instead of being restored or skipped. -/
theorem second_step_snapshot_precondition
    (baseStep : List ParamGroup → List ParamGroup) (zg : Bool)
    (groups : List ParamGroup) :
    (second_step baseStep zg groups).isSome
      ↔ ∀ g ∈ groups, ∀ p ∈ g.params, p.grad.isSome → p.old_p.isSome := by
  have hss : (second_step baseStep zg groups).isSome = (restoreGroups groups).isSome := by
    rw [second_step]
    cases restoreGroups groups <;> rfl
  rw [hss, restoreGroups, isSome_mapOrFail]
  constructor
  · intro h g hg p hp
    have hgrp := h g hg
    cases hmp : mapOrFail restoreParam g.params with
    | none => rw [hmp] at hgrp; simp at hgrp
    | some ps =>
      have : ∀ q ∈ g.params, (restoreParam q).isSome :=
        (isSome_mapOrFail restoreParam g.params).mp (by simp [hmp])
      exact (isSome_restoreParam p).mp (this p hp)
  · intro h g hg
    have : (mapOrFail restoreParam g.params).isSome :=
      (isSome_mapOrFail restoreParam g.params).mpr
        (fun p hp => (isSome_restoreParam p).mpr (h g hg p hp))
    cases hmp : mapOrFail restoreParam g.params with
    | none => rw [hmp] at this; simp at this
    | some ps => simp [hmp]

/-- C1: for a single-parameter, single-group model with parameter value `w`,
gradient `g` and `adaptive=False`, `first_step` moves the parameter to
`w + rho * g / (‖g‖₂ + 1e-12)` (element-wise) and snapshots `old_p = w`. -/
theorem first_step_single_param (rho : ℝ) (w g : List ℝ) (o : Option (List ℝ))
    (hlen : w.length = g.length) :
    first_step false
        [{ rho := rho, adaptive := false,
           params := [{ data := w, grad := some g, old_p := o }] }]
      = some [{ rho := rho, adaptive := false,
                params := [{ data := List.zipWith (fun wi gi => wi + rho * gi / (l2norm g + 1e-12)) w g,
                             grad := some g, old_p := some w }] }] := by
  have hcontrib :
      gradContrib false { data := w, grad := some g, old_p := o } g = l2norm g := by
    rw [gradContrib]
    congr 1
    have h1 : List.zipWith
        (fun wi gi => (if false = true then |wi| else 1) * gi) w g
        = List.zipWith (fun (_ : ℝ) (gi : ℝ) => gi) w g :=
      zipWith_ext _ _ (fun a b => by simp) w g
    rw [h1, zipWith_snd w g hlen]
  have hgn : grad_norm
      [{ rho := rho, adaptive := false,
         params := [{ data := w, grad := some g, old_p := o }] }]
      = some (l2norm g) := by
    simp [grad_norm, gradContribs, hcontrib, l2norm_singleton,
      abs_of_nonneg (l2norm_nonneg g)]
  rw [first_step, hgn]
  simp only [Option.map_some', Bool.false_eq_true, if_false]
  rw [perturbGroups]
  simp only [List.map_cons, List.map_nil, perturbParam]
  have h2 : List.zipWith
      (fun wi gi => wi + (if false = true then wi ^ 2 else 1) * gi
          * scaleOf rho (l2norm g)) w g
      = List.zipWith (fun wi gi => wi + rho * gi / (l2norm g + 1e-12)) w g :=
    zipWith_ext _ _ (fun a b => by simp [scaleOf]; ring) w g
  rw [h2]

/-- Witness for `first_step_single_param` at `rho = 1`, `w = [1]`,
`g = [0]`. -/
theorem first_step_single_param_witness :
    first_step false
        [{ rho := 1, adaptive := false,
           params := [{ data := [1], grad := some [0], old_p := none }] }]
      = some [{ rho := 1, adaptive := false,
                params := [{ data := List.zipWith (fun wi gi => wi + 1 * gi / (l2norm [0] + 1e-12)) [1] [0],
                             grad := some [0], old_p := some [1] }] }] :=
  first_step_single_param 1 [1] [0] none rfl

/-- Scaling every entry of a tensor by 2 scales its L2 norm by 2. -/
theorem l2norm_double (xs : List ℝ) :
    l2norm (xs.map (fun x => 2 * x)) = 2 * l2norm xs := by
  rw [l2norm, l2norm, List.map_map]
  have h1 : ((fun x : ℝ => x ^ 2) ∘ fun x : ℝ => 2 * x) = fun x : ℝ => 4 * x ^ 2 := by
    funext x
    simp only [Function.comp]
    ring
  rw [h1, List.sum_map_mul_left, Real.sqrt_mul (by norm_num) _]
  have h2 : Real.sqrt 4 = 2 := by
    rw [show (4 : ℝ) = 2 ^ 2 by norm_num, Real.sqrt_sq (by norm_num)]
  rw [h2]

/-- The value `gradContrib` ignores the gradient field stored in the parameter. -/
theorem gradContrib_grad_update (a : Bool) (p : Param) (X : Option (List ℝ))
    (g : List ℝ) : gradContrib a { p with grad := X } g = gradContrib a p g := rfl

/-- Doubling the gradient tensor doubles a parameter's norm contribution. -/
theorem gradContrib_double (a : Bool) (p : Param) (g : List ℝ) :
    gradContrib a p (g.map (fun x => 2 * x)) = 2 * gradContrib a p g := by
  rw [gradContrib, gradContrib, ← l2norm_double]
  congr 1
  rw [List.zipWith_map_right, List.map_zipWith]
  exact zipWith_ext _ _ (fun x y => by ring) _ _

/-- The list `gradContribs` over one group splits off from the rest. -/
theorem gradContribs_cons (g : ParamGroup) (t : List ParamGroup) :
    gradContribs (g :: t)
      = g.params.filterMap (fun p => p.grad.map (gradContrib g.adaptive p))
          ++ gradContribs t := by
  rw [gradContribs, gradContribs, List.map_cons, List.flatten_cons]

/-- Doubling gradients doubles each entry of a group's contribution list. -/
theorem contribsOfGroup_double (a : Bool) (ps : List Param) :
    (ps.map (fun p => { p with grad := p.grad.map (List.map (fun x => 2 * x)) })).filterMap
        (fun p => p.grad.map (gradContrib a p))
      = (ps.filterMap (fun p => p.grad.map (gradContrib a p))).map (fun x => 2 * x) := by
  induction ps with
  | nil => rfl
  | cons p t ih =>
    cases hg : p.grad with
    | none => simp [List.filterMap_cons, hg, ih]
    | some gr =>
      simp only [List.map_cons, List.filterMap_cons, hg, Option.map_some']
      rw [gradContrib_grad_update, gradContrib_double, ih]

/-- Doubling every gradient doubles the whole stacked contribution list. -/
theorem gradContribs_double (groups : List ParamGroup) :
    gradContribs (doubleGrads groups) = (gradContribs groups).map (fun x => 2 * x) := by
  induction groups with
  | nil => rfl
  | cons g t ih =>
    rw [doubleGrads, List.map_cons]
    rw [gradContribs_cons, gradContribs_cons]
    rw [show (doubleGrads t = List.map (fun g => { g with params := g.params.map (fun p => { p with grad := p.grad.map (List.map (fun x => 2 * x)) }) }) t) from rfl] at ih
    rw [ih, List.map_append]
    congr 1
    exact contribsOfGroup_double g.adaptive g.params

/-- A successful `_grad_norm` is the L2 norm of a non-empty contribution
list over a state whose first group is non-empty. -/
theorem grad_norm_some_eq (groups : List ParamGroup) (gn : ℝ)
    (h : grad_norm groups = some gn) :
    gn = l2norm (gradContribs groups) ∧ gradContribs groups ≠ []
      ∧ ∃ g0 rest, groups = g0 :: rest ∧ g0.params ≠ [] := by
  cases groups with
  | nil => simp [grad_norm] at h
  | cons g0 rest =>
    cases hq : g0.params with
    | nil => simp [grad_norm, hq] at h
    | cons q qs =>
      cases hc : gradContribs (g0 :: rest) with
      | nil => simp [grad_norm, hq, hc] at h
      | cons c cs =>
        have hval : gn = l2norm (c :: cs) := by
          simp [grad_norm, hq, hc] at h
          exact h.symm
        exact ⟨by rw [hval], by simp, g0, rest, rfl, by simp [hq]⟩

/-- The norm `_grad_norm` succeeds on a state whose first group is non-empty and
whose contribution list is non-empty. -/
theorem grad_norm_eq_of_ne (groups : List ParamGroup)
    (hne : ∃ g0 rest, groups = g0 :: rest ∧ g0.params ≠ [])
    (hc : gradContribs groups ≠ []) :
    grad_norm groups = some (l2norm (gradContribs groups)) := by
  obtain ⟨g0, rest, rfl, hq⟩ := hne
  cases hqq : g0.params with
  | nil => exact absurd hqq hq
  | cons q qs =>
    cases hcc : gradContribs (g0 :: rest) with
    | nil => exact absurd hcc hc
    | cons c cs => simp [grad_norm, hqq, hcc]

/-- The L2 norm of an all-zero tensor is `0`. -/
theorem l2norm_of_all_zero (xs : List ℝ) (h : ∀ x ∈ xs, x = 0) : l2norm xs = 0 := by
  rw [l2norm]
  have hs : (xs.map (fun x => x ^ 2)).sum = 0 := by
    apply List.sum_eq_zero
    intro y hy
    obtain ⟨x, hx, rfl⟩ := List.mem_map.mp hy
    rw [h x hx]
    norm_num
  rw [hs, Real.sqrt_zero]

/-- A `zipWith` whose function kills `0` and whose right list is all zero is
all zero. -/
theorem zipWith_mem_zero {α : Type} (f : α → ℝ → ℝ) (hf : ∀ a, f a 0 = 0) :
    ∀ (as : List α) (bs : List ℝ), (∀ b ∈ bs, b = 0) →
      ∀ y ∈ List.zipWith f as bs, y = 0 := by
  intro as
  induction as with
  | nil =>
    intro bs hb y hy
    simp at hy
  | cons a t ih =>
    intro bs hb y hy
    cases bs with
    | nil => simp at hy
    | cons b tb =>
      rw [List.zipWith_cons_cons] at hy
      rcases List.mem_cons.mp hy with h1 | h2
      · rw [h1, hb b (by simp), hf]
      · exact ih tb (fun x hx => hb x (by simp [hx])) y h2

/-- With all-zero gradients, every stacked contribution is `0`. -/
theorem gradContribs_of_zero_grads (groups : List ParamGroup)
    (hz : ∀ g ∈ groups, ∀ p ∈ g.params, ∀ gr, p.grad = some gr → ∀ x ∈ gr, x = 0) :
    ∀ x ∈ gradContribs groups, x = 0 := by
  intro x hx
  rw [gradContribs] at hx
  obtain ⟨s, hs, hxs⟩ := List.mem_flatten.mp hx
  obtain ⟨g, hg, rfl⟩ := List.mem_map.mp hs
  obtain ⟨p, hp, hfp⟩ := List.mem_filterMap.mp hxs
  cases hgr : p.grad with
  | none => rw [hgr] at hfp; simp at hfp
  | some gr =>
    rw [hgr] at hfp
    simp only [Option.map_some'] at hfp
    obtain rfl := Option.some.inj hfp
    rw [gradContrib]
    apply l2norm_of_all_zero
    exact zipWith_mem_zero _ (fun a => by simp) p.data gr (hz g hg p hp gr hgr)

/-- C3: the aggregate gradient norm of `_grad_norm` is positively
homogeneous: doubling every gradient doubles it; and on an all-zero
gradient state it is `0`, with the per-group perturbation scale
`rho / (grad_norm + 1e-12)` still the finite value `rho * 10^12`. -/
theorem grad_norm_homogeneous :
    (∀ (groups : List ParamGroup) (gn : ℝ), grad_norm groups = some gn →
        grad_norm (doubleGrads groups) = some (2 * gn))
    ∧ (∀ (groups : List ParamGroup) (gn : ℝ), grad_norm groups = some gn →
        (∀ g ∈ groups, ∀ p ∈ g.params, ∀ gr, p.grad = some gr → ∀ x ∈ gr, x = 0) →
        gn = 0 ∧ ∀ rho : ℝ, scaleOf rho gn = rho * 10 ^ 12) := by
  constructor
  · intro groups gn h
    obtain ⟨hval, hcne, g0, rest, rfl, hq⟩ := grad_norm_some_eq groups gn h
    have hdc : gradContribs (doubleGrads (g0 :: rest))
        = (gradContribs (g0 :: rest)).map (fun x => 2 * x) := gradContribs_double _
    have hdcne : gradContribs (doubleGrads (g0 :: rest)) ≠ [] := by
      rw [hdc]
      cases hcs : gradContribs (g0 :: rest) with
      | nil => exact absurd hcs hcne
      | cons c cs => simp
    have hdne : ∃ d0 drest, doubleGrads (g0 :: rest) = d0 :: drest ∧ d0.params ≠ [] := by
      refine ⟨_, _, rfl, ?_⟩
      cases hqq : g0.params with
      | nil => exact absurd hqq hq
      | cons q qs => simp [hqq]
    rw [grad_norm_eq_of_ne (doubleGrads (g0 :: rest)) hdne hdcne, hdc,
      l2norm_double, hval]
  · intro groups gn h hz
    obtain ⟨hval, hcne, g0, rest, rfl, hq⟩ := grad_norm_some_eq groups gn h
    have hzero : ∀ x ∈ gradContribs (g0 :: rest), x = 0 :=
      gradContribs_of_zero_grads _ hz
    have hgn0 : gn = 0 := by
      rw [hval]
      exact l2norm_of_all_zero _ hzero
    refine ⟨hgn0, ?_⟩
    intro rho
    rw [hgn0, scaleOf, zero_add, div_eq_mul_inv]
    norm_num

/-- Witness for `grad_norm_homogeneous` on a one-parameter state with an
all-zero gradient. -/
theorem grad_norm_homogeneous_witness :
    grad_norm (doubleGrads [{ rho := 1, adaptive := false, params := [{ data := [1], grad := some [0], old_p := none }] }]) = some (2 * 0)
    ∧ scaleOf 5 0 = 5 * 10 ^ 12 := by
  have hg : grad_norm [{ rho := 1, adaptive := false, params := [{ data := [1], grad := some [0], old_p := none }] }] = some 0 := by
    simp [grad_norm, gradContribs, gradContrib, l2norm]
  have hz : ∀ g ∈ [({ rho := 1, adaptive := false, params := [{ data := [1], grad := some [0], old_p := none }] } : ParamGroup)], ∀ p ∈ g.params, ∀ gr, p.grad = some gr → ∀ x ∈ gr, (x : ℝ) = 0 := by
    intro g hgmem p hpmem gr hgr x hxmem
    simp only [List.mem_singleton] at hgmem
    subst hgmem
    simp only [List.mem_singleton] at hpmem
    subst hpmem
    have hgr2 : ([0] : List ℝ) = gr := Option.some.inj hgr
    subst hgr2
    simpa using hxmem
  exact ⟨grad_norm_homogeneous.1 _ 0 hg,
    (grad_norm_homogeneous.2 _ 0 hg hz).2 5⟩

/-- The snapshot `snapParam` never changes the data tensor. -/
theorem snapParam_data (p : Param) : (snapParam p).data = p.data := by
  cases hg : p.grad <;> simp [snapParam, hg]

/-- Restoring a perturbed parameter whose gradient was rewritten (same
presence pattern) yields the snapshot value: the pre-perturbation data with
the fresh gradient. -/
theorem restore_set_perturb (a : Bool) (s : ℝ) (og : Option (List ℝ)) (p : Param)
    (h : og.isSome = p.grad.isSome) :
    restoreParam { perturbParam a s p with grad := og }
      = some { snapParam p with grad := og } := by
  cases hg : p.grad with
  | none =>
    cases og with
    | none => simp [perturbParam, snapParam, restoreParam, hg]
    | some ng => rw [hg] at h; simp at h
  | some gr =>
    cases og with
    | none => rw [hg] at h; simp at h
    | some ng => simp [perturbParam, snapParam, restoreParam, hg]

/-- Lifting `restore_set_perturb` over one group's parameter list. -/
theorem restore_params_list (a : Bool) (s : ℝ) :
    ∀ (Gg : List (Option (List ℝ))) (ps : List Param),
      List.Forall₂ (fun og p => og.isSome = p.grad.isSome) Gg ps →
      mapOrFail restoreParam
          (List.zipWith (fun og p => { p with grad := og }) Gg
            (ps.map (perturbParam a s)))
        = some (List.zipWith (fun og p => { p with grad := og }) Gg
            (ps.map snapParam)) := by
  intro Gg ps h
  induction h with
  | nil => rfl
  | cons hop htail ih =>
    simp only [List.map_cons, List.zipWith_cons_cons, mapOrFail]
    rw [restore_set_perturb _ _ _ _ hop, ih]
    rfl

/-- Rewriting gradients after `zero_grad` is the same as rewriting them
directly: `setGrads` overwrites the cleared gradient field. -/
theorem setParams_clearGrad :
    ∀ (Gg : List (Option (List ℝ))) (ps : List Param),
      List.zipWith (fun og p => { p with grad := og }) Gg (ps.map clearGrad)
        = List.zipWith (fun og p => { p with grad := og }) Gg ps := by
  intro Gg
  induction Gg with
  | nil => intro ps; rfl
  | cons og Gg' ih =>
    intro ps
    cases ps with
    | nil => rfl
    | cons p ps' => simp [clearGrad, List.zipWith_cons_cons, ih]

/-- A `setGrads` cancels a preceding `zero_grad`. -/
theorem setGrads_zero_grad :
    ∀ (G : List (List (Option (List ℝ)))) (X : List ParamGroup),
      setGrads G (zero_grad X) = setGrads G X := by
  intro G
  induction G with
  | nil => intro X; rfl
  | cons Gg G' ih =>
    intro X
    cases X with
    | nil => rfl
    | cons g X' =>
      have h1 : setGrads (Gg :: G') (zero_grad (g :: X'))
          = { g with params := List.zipWith (fun og p => { p with grad := og }) Gg (g.params.map clearGrad) } :: setGrads G' (zero_grad X') := rfl
      have h2 : setGrads (Gg :: G') (g :: X')
          = { g with params := List.zipWith (fun og p => { p with grad := og }) Gg g.params } :: setGrads G' X' := rfl
      rw [h1, h2, setParams_clearGrad, ih X']

/-- Restoration after perturbation and a gradient rewrite of the same
presence pattern recovers the snapshotted state with the fresh gradients. -/
theorem restore_setGrads_perturb (gn : ℝ) :
    ∀ (G : List (List (Option (List ℝ)))) (groups : List ParamGroup),
      List.Forall₂ (fun Gg g => List.Forall₂
        (fun og p => og.isSome = p.grad.isSome) Gg g.params) G groups →
      restoreGroups (setGrads G (perturbGroups gn groups))
        = some (setGrads G (snapGroups groups)) := by
  intro G groups h
  induction h with
  | nil => rfl
  | cons hGg htail ih =>
    simp only [setGrads, perturbGroups, snapGroups, List.map_cons,
      List.zipWith_cons_cons, restoreGroups, mapOrFail] at *
    rw [restore_params_list _ _ _ _ hGg]
    rw [ih]
    rfl

/-- The data tensors after snapshotting and a gradient rewrite are exactly
the original ones. -/
theorem dataOf_params_snap :
    ∀ (Gg : List (Option (List ℝ))) (ps : List Param),
      List.Forall₂ (fun og p => og.isSome = p.grad.isSome) Gg ps →
      (List.zipWith (fun og p => { p with grad := og }) Gg
          (ps.map snapParam)).map (fun p => p.data)
        = ps.map (fun p => p.data) := by
  intro Gg ps h
  induction h with
  | nil => rfl
  | cons hop htail ih =>
    simp only [List.map_cons, List.zipWith_cons_cons, ih]
    rw [snapParam_data]

/-- Group-level version of `dataOf_params_snap`. -/
theorem dataOf_setGrads_snap :
    ∀ (G : List (List (Option (List ℝ)))) (groups : List ParamGroup),
      List.Forall₂ (fun Gg g => List.Forall₂
        (fun og p => og.isSome = p.grad.isSome) Gg g.params) G groups →
      dataOf (setGrads G (snapGroups groups)) = dataOf groups := by
  intro G groups h
  induction h with
  | nil => rfl
  | cons hGg htail ih =>
    simp only [setGrads, snapGroups, dataOf, List.map_cons,
      List.zipWith_cons_cons] at *
    rw [dataOf_params_snap _ _ hGg, ih]

/-- C2: after a successful `first_step` and a closure that rewrote the
gradients (same presence pattern `G`), `second_step` restores every
gradient-bearing parameter bit-for-bit to its snapshotted pre-perturbation
value and only then invokes the wrapped base optimizer: the state handed to
`baseStep` is the original state with just the gradients replaced and the
snapshots recorded, and its data tensors are exactly those of the original
state. -/
theorem second_step_restores (baseStep : List ParamGroup → List ParamGroup)
    (groups groups' : List ParamGroup) (G : List (List (Option (List ℝ))))
    (zg : Bool)
    (hfs : first_step zg groups = some groups')
    (hG : List.Forall₂ (fun Gg g => List.Forall₂
        (fun og p => og.isSome = p.grad.isSome) Gg g.params) G groups) :
    second_step baseStep false (setGrads G groups')
      = some (baseStep (setGrads G (snapGroups groups)))
    ∧ dataOf (setGrads G (snapGroups groups)) = dataOf groups := by
  rw [first_step] at hfs
  cases hgn : grad_norm groups with
  | none => rw [hgn] at hfs; simp at hfs
  | some gn =>
    rw [hgn] at hfs
    simp only [Option.map_some'] at hfs
    have hsg : setGrads G groups' = setGrads G (perturbGroups gn groups) := by
      cases zg with
      | false =>
        simp only [Bool.false_eq_true, if_false] at hfs
        rw [← Option.some.inj hfs]
      | true =>
        simp only [if_true] at hfs
        rw [← Option.some.inj hfs, setGrads_zero_grad]
    refine ⟨?_, dataOf_setGrads_snap G groups hG⟩
    rw [hsg, second_step, restore_setGrads_perturb gn G groups hG]
    rfl

/-- Witness for `second_step_restores` on a one-parameter state whose
gradient is rewritten from `[0]` to `[7]` by the closure. -/
theorem second_step_restores_witness :
    second_step id false (setGrads [[some [7]]] [{ rho := 1, adaptive := false, params := [{ data := [1], grad := some [0], old_p := some [1] }] }])
      = some (id (setGrads [[some [7]]] (snapGroups [{ rho := 1, adaptive := false, params := [{ data := [1], grad := some [0], old_p := none }] }])))
    ∧ dataOf (setGrads [[some [7]]] (snapGroups [{ rho := 1, adaptive := false, params := [{ data := [1], grad := some [0], old_p := none }] }]))
      = dataOf [{ rho := 1, adaptive := false, params := [{ data := [1], grad := some [0], old_p := none }] }] := by
  have hg : grad_norm [{ rho := 1, adaptive := false, params := [{ data := [1], grad := some [0], old_p := none }] }] = some 0 := by
    simp [grad_norm, gradContribs, gradContrib, l2norm]
  have hfs : first_step false [{ rho := 1, adaptive := false, params := [{ data := [1], grad := some [0], old_p := none }] }]
      = some [{ rho := 1, adaptive := false, params := [{ data := [1], grad := some [0], old_p := some [1] }] }] := by
    rw [first_step, hg]
    simp [perturbGroups, perturbParam, scaleOf]
  exact second_step_restores id _ _ [[some [7]]] false hfs
    (List.Forall₂.cons (List.Forall₂.cons rfl List.Forall₂.nil) List.Forall₂.nil)
